import Mathlib

/-!
Verification of the TitanPose analytics core (`src/main.py`).

The embedding models:
* `Geometry.calculate_angle` (three-point angle via `atan2` differences),
* the per-identity squat state machine operating on the two Python dicts
  `squat_state` / `squat_count` (modelled as association lists keyed by the
  tracking id),
* the fall detector and the single-slot alert buffer
  (`current_alert` / `alert_timer`), and
* the per-person body of `TitanPoseSystem.process_pose`.

Knee-angle comparisons in the squat logic are pure order comparisons against
the numerals 110 and 160, so the squat definitions are stated over an
arbitrary `LinearOrderedRing`; the program instantiates them at the reals.
-/

/-- Squat phase: the strings "UP" / "DOWN" stored in `squat_state`. -/
inductive Phase where
  | UP : Phase
  | DOWN : Phase
deriving DecidableEq

namespace Config

/-- `Config.FALL_THRESHOLD = 45` (degrees of inclination). -/
def FALL_THRESHOLD : ℝ := 45

/-- `Config.SQUAT_THRESHOLD = 110` (degrees of knee bend), stated generically
over any linear ordered ring since it is only compared against. -/
def SQUAT_THRESHOLD {α : Type} [LinearOrderedRing α] : α := 110

end Config

/-- Lookup in a Python-dict model: first entry with the given key. -/
def getKey {β : Type} (k : ℤ) : List (ℤ × β) → Option β
  | [] => none
  | (k₂, v) :: rest => if k = k₂ then some v else getKey k rest

/-- Python-dict assignment `d[k] = v`: replace the value at `k` if present,
otherwise append the new binding at the end (dict insertion order). -/
def setKey {β : Type} (k : ℤ) (v : β) : List (ℤ × β) → List (ℤ × β)
  | [] => [(k, v)]
  | (k₂, v₂) :: rest => if k = k₂ then (k, v) :: rest else (k₂, v₂) :: setKey k v rest

/-- The squat step for the record of one identity `(phase, count)`, mirroring
`main.py` lines 139–143:
`if knee_angle < 110: state = DOWN`; then
`if knee_angle > 160 and state == DOWN: state = UP; count += 1`. -/
def squatRecStep {α : Type} [LinearOrderedRing α] (angle : α) (r : Phase × ℕ) :
    Phase × ℕ :=
  let r₁ : Phase × ℕ := if angle < Config.SQUAT_THRESHOLD then (Phase.DOWN, r.2) else r
  if 160 < angle ∧ r₁.1 = Phase.DOWN then (Phase.UP, r₁.2 + 1) else r₁

/-- Folding the record-level squat step over a knee-angle sequence. -/
def squatRecRun {α : Type} [LinearOrderedRing α] (angles : List α) (r : Phase × ℕ) :
    Phase × ℕ :=
  angles.foldl (fun r₂ a => squatRecStep a r₂) r

/-- Lazy initialisation of a fresh identity, mirroring lines 134–136:
`if person_id not in self.squat_state: squat_state[id] = "UP"; squat_count[id] = 0`. -/
def squatInit (person_id : ℤ) (st : List (ℤ × Phase)) (ct : List (ℤ × ℕ)) :
    List (ℤ × Phase) × List (ℤ × ℕ) :=
  if getKey person_id st = none then
    (setKey person_id Phase.UP st, setKey person_id 0 ct)
  else (st, ct)

/-- One squat update of the two dicts for a given identity and knee angle,
mirroring `main.py` lines 133–143 (initialisation, the `< 110` branch, then
the `> 160` branch reading the just-updated state). -/
def squatUpdate {α : Type} [LinearOrderedRing α] (person_id : ℤ) (angle : α)
    (st : List (ℤ × Phase)) (ct : List (ℤ × ℕ)) :
    List (ℤ × Phase) × List (ℤ × ℕ) :=
  let m := squatInit person_id st ct
  let st₁ := if angle < Config.SQUAT_THRESHOLD then setKey person_id Phase.DOWN m.1 else m.1
  if 160 < angle ∧ getKey person_id st₁ = some Phase.DOWN then
    (setKey person_id Phase.UP st₁,
     setKey person_id ((getKey person_id m.2).getD 0 + 1) m.2)
  else (st₁, m.2)

/-- Folding `squatUpdate` for one identity over a knee-angle sequence. -/
def squatRunMaps {α : Type} [LinearOrderedRing α] (person_id : ℤ) (angles : List α)
    (m : List (ℤ × Phase) × List (ℤ × ℕ)) :
    List (ℤ × Phase) × List (ℤ × ℕ) :=
  angles.foldl (fun m₂ a => squatUpdate person_id a m₂.1 m₂.2) m

/-- Observed phase of an identity (`UP` before first observation, matching the
lazy-init default). -/
def phaseOf (person_id : ℤ) (st : List (ℤ × Phase)) : Phase :=
  (getKey person_id st).getD Phase.UP

/-- Observed repetition count of an identity (0 before first observation,
matching the lazy-init default). -/
def countOf (person_id : ℤ) (ct : List (ℤ × ℕ)) : ℕ :=
  (getKey person_id ct).getD 0

/-- The alert slot: `current_alert` / `alert_timer` of `TitanPoseSystem`. -/
structure AlertState where
  current_alert : String
  alert_timer : ℤ
deriving DecidableEq

/-- Raising an alert, mirroring lines 125–126: overwrite the message and reset
the timer (the call site uses duration 30). -/
def raiseAlert (msg : String) (duration : ℤ) (_s : AlertState) : AlertState :=
  ⟨msg, duration⟩

/-- The per-frame alert countdown in `draw_cyberpunk_hud` (lines 69–76):
if the message is non-empty and the timer positive, decrement the timer;
otherwise clear the message. -/
def tickAlert (s : AlertState) : AlertState :=
  if s.current_alert ≠ "" ∧ 0 < s.alert_timer then ⟨s.current_alert, s.alert_timer - 1⟩
  else ⟨"", s.alert_timer⟩

/-- Whether the alert box is displayed: the condition of line 69. -/
def isActiveAlert (s : AlertState) : Bool :=
  s.current_alert != "" && decide (0 < s.alert_timer)

-- Basic dict lemmas ---------------------------------------------------------

theorem getKey_setKey_self {β : Type} (k : ℤ) (v : β) (l : List (ℤ × β)) :
    getKey k (setKey k v l) = some v := by
  induction l with
  | nil => simp [getKey, setKey]
  | cons hd tl ih =>
    obtain ⟨k₂, v₂⟩ := hd
    by_cases h : k = k₂
    · simp [getKey, setKey, h]
    · simp [getKey, setKey, h, ih]

theorem keys_setKey_absent {β : Type} (k : ℤ) (v : β) (l : List (ℤ × β))
    (h : getKey k l = none) :
    (setKey k v l).map Prod.fst = l.map Prod.fst ++ [k] := by
  induction l with
  | nil => simp [setKey]
  | cons hd tl ih =>
    obtain ⟨k₂, v₂⟩ := hd
    by_cases hk : k = k₂
    · simp [getKey, hk] at h
    · simp only [getKey, if_neg hk] at h
      simp [setKey, hk, ih h]

theorem keys_setKey_present {β : Type} (k : ℤ) (v : β) (l : List (ℤ × β))
    (h : getKey k l ≠ none) :
    (setKey k v l).map Prod.fst = l.map Prod.fst := by
  induction l with
  | nil => simp [getKey] at h
  | cons hd tl ih =>
    obtain ⟨k₂, v₂⟩ := hd
    by_cases hk : k = k₂
    · simp [setKey, hk]
    · simp only [getKey, if_neg hk] at h
      simp [setKey, hk, ih h]

theorem getKey_none_iff_keys {β : Type} (k : ℤ) (l : List (ℤ × β)) :
    getKey k l = none ↔ k ∉ l.map Prod.fst := by
  induction l with
  | nil => simp [getKey]
  | cons hd tl ih =>
    obtain ⟨k₂, v₂⟩ := hd
    by_cases hk : k = k₂
    · simp [getKey, hk]
    · simp [getKey, hk, ih]

-- The squat thresholds compare sensibly in any linear ordered ring ----------

theorem squat_thresholds_lt {α : Type} [LinearOrderedRing α] :
    (Config.SQUAT_THRESHOLD : α) < 160 := by
  norm_num [Config.SQUAT_THRESHOLD]

-- Tracking: the dict-level update simulates the record-level step -----------

/-- For a synchronised pair of dicts, `squatUpdate` leaves the identity bound
in both dicts with exactly the record produced by `squatRecStep` on the
observed `(phase, count)` pair. -/
theorem squatUpdate_getKey {α : Type} [LinearOrderedRing α] (person_id : ℤ)
    (a : α) (st : List (ℤ × Phase)) (ct : List (ℤ × ℕ))
    (hsync : getKey person_id st = none ↔ getKey person_id ct = none) :
    getKey person_id (squatUpdate person_id a st ct).1
        = some (squatRecStep a (phaseOf person_id st, countOf person_id ct)).1
      ∧ getKey person_id (squatUpdate person_id a st ct).2
        = some (squatRecStep a (phaseOf person_id st, countOf person_id ct)).2 := by
  have h1116 : (Config.SQUAT_THRESHOLD : α) < 160 := squat_thresholds_lt
  by_cases hn : getKey person_id st = none
  · have hcn : getKey person_id ct = none := hsync.mp hn
    by_cases h110 : a < Config.SQUAT_THRESHOLD
    · by_cases h160 : (160 : α) < a
      · exact absurd (lt_trans h160 h110) (not_lt.mpr h1116.le)
      · simp [squatUpdate, squatInit, squatRecStep, phaseOf, countOf, hn, hcn,
          h110, h160, getKey_setKey_self]
    · by_cases h160 : (160 : α) < a
      · simp [squatUpdate, squatInit, squatRecStep, phaseOf, countOf, hn, hcn,
          h110, h160, getKey_setKey_self]
      · simp [squatUpdate, squatInit, squatRecStep, phaseOf, countOf, hn, hcn,
          h110, h160, getKey_setKey_self]
  · obtain ⟨p₀, hp₀⟩ := Option.ne_none_iff_exists'.mp hn
    have hcn : getKey person_id ct ≠ none := fun h => hn (hsync.mpr h)
    obtain ⟨c₀, hc₀⟩ := Option.ne_none_iff_exists'.mp hcn
    by_cases h110 : a < Config.SQUAT_THRESHOLD
    · by_cases h160 : (160 : α) < a
      · exact absurd (lt_trans h160 h110) (not_lt.mpr h1116.le)
      · simp [squatUpdate, squatInit, squatRecStep, phaseOf, countOf, hn,
          hp₀, hc₀, h110, h160, getKey_setKey_self]
    · by_cases h160 : (160 : α) < a
      · by_cases hp : p₀ = Phase.DOWN
        · subst hp
          simp [squatUpdate, squatInit, squatRecStep, phaseOf, countOf, hn,
            hp₀, hc₀, h110, h160, getKey_setKey_self]
        · simp [squatUpdate, squatInit, squatRecStep, phaseOf, countOf, hn,
            hp₀, hc₀, h110, h160, hp, getKey_setKey_self]
      · simp [squatUpdate, squatInit, squatRecStep, phaseOf, countOf, hn,
          hp₀, hc₀, h110, h160, getKey_setKey_self]

/-- Projection of the tracking lemma to `phaseOf`/`countOf`. -/
theorem squatUpdate_track {α : Type} [LinearOrderedRing α] (person_id : ℤ)
    (a : α) (st : List (ℤ × Phase)) (ct : List (ℤ × ℕ))
    (hsync : getKey person_id st = none ↔ getKey person_id ct = none) :
    phaseOf person_id (squatUpdate person_id a st ct).1
        = (squatRecStep a (phaseOf person_id st, countOf person_id ct)).1
      ∧ countOf person_id (squatUpdate person_id a st ct).2
        = (squatRecStep a (phaseOf person_id st, countOf person_id ct)).2 := by
  obtain ⟨h₁, h₂⟩ := squatUpdate_getKey person_id a st ct hsync
  constructor
  · simp [phaseOf, h₁]
  · simp [countOf, h₂]

/-- Running the dict-level updates simulates running the record-level steps. -/
theorem squatRunMaps_track {α : Type} [LinearOrderedRing α] (person_id : ℤ)
    (angles : List α) (st : List (ℤ × Phase)) (ct : List (ℤ × ℕ))
    (hsync : getKey person_id st = none ↔ getKey person_id ct = none) :
    phaseOf person_id (squatRunMaps person_id angles (st, ct)).1
        = (squatRecRun angles (phaseOf person_id st, countOf person_id ct)).1
      ∧ countOf person_id (squatRunMaps person_id angles (st, ct)).2
        = (squatRecRun angles (phaseOf person_id st, countOf person_id ct)).2 := by
  induction angles generalizing st ct with
  | nil => simp [squatRunMaps, squatRecRun]
  | cons a tl ih =>
    obtain ⟨h₁, h₂⟩ := squatUpdate_getKey person_id a st ct hsync
    have hsync₂ : getKey person_id (squatUpdate person_id a st ct).1 = none
        ↔ getKey person_id (squatUpdate person_id a st ct).2 = none := by
      simp [h₁, h₂]
    have hstep := squatUpdate_track person_id a st ct hsync
    have hrw : squatRunMaps person_id (a :: tl) (st, ct)
        = squatRunMaps person_id tl
            ((squatUpdate person_id a st ct).1, (squatUpdate person_id a st ct).2) := by
      simp [squatRunMaps]
    have hrun : squatRecRun (a :: tl) (phaseOf person_id st, countOf person_id ct)
        = squatRecRun tl (squatRecStep a (phaseOf person_id st, countOf person_id ct)) := by
      simp [squatRecRun]
    have hpair : (phaseOf person_id (squatUpdate person_id a st ct).1,
          countOf person_id (squatUpdate person_id a st ct).2)
        = squatRecStep a (phaseOf person_id st, countOf person_id ct) :=
      Prod.ext_iff.mpr ⟨hstep.1, hstep.2⟩
    rw [hrw, hrun, ← hpair]
    exact ih (squatUpdate person_id a st ct).1 (squatUpdate person_id a st ct).2 hsync₂

-- Record-level squat lemmas --------------------------------------------------

theorem squatRecRun_cons {α : Type} [LinearOrderedRing α] (a : α) (l : List α)
    (r : Phase × ℕ) : squatRecRun (a :: l) r = squatRecRun l (squatRecStep a r) := by
  simp [squatRecRun]

theorem squatRecRun_append {α : Type} [LinearOrderedRing α] (l₁ l₂ : List α)
    (r : Phase × ℕ) :
    squatRecRun (l₁ ++ l₂) r = squatRecRun l₂ (squatRecRun l₁ r) := by
  simp [squatRecRun, List.foldl_append]

/-- A knee angle inside the closed hysteresis band `[110, 160]` leaves the
record unchanged: neither transition guard fires. -/
theorem squatRecStep_band {α : Type} [LinearOrderedRing α] (a : α) (r : Phase × ℕ)
    (h₁ : Config.SQUAT_THRESHOLD ≤ a) (h₂ : a ≤ 160) : squatRecStep a r = r := by
  have hl : ¬ a < Config.SQUAT_THRESHOLD := not_lt.mpr h₁
  have hu : ¬ (160 : α) < a := not_lt.mpr h₂
  simp [squatRecStep, hl, hu]

theorem squatRecRun_band {α : Type} [LinearOrderedRing α] (l : List α)
    (r : Phase × ℕ) (h : ∀ a ∈ l, Config.SQUAT_THRESHOLD ≤ a ∧ a ≤ 160) :
    squatRecRun l r = r := by
  induction l with
  | nil => simp [squatRecRun]
  | cons a tl ih =>
    have ha := h a (List.mem_cons_self a tl)
    rw [squatRecRun_cons, squatRecStep_band a r ha.1 ha.2]
    exact ih fun b hb => h b (List.mem_cons_of_mem a hb)

/-- An angle below the lower threshold forces phase `DOWN`, count unchanged. -/
theorem squatRecStep_down {α : Type} [LinearOrderedRing α] (a : α)
    (h : a < Config.SQUAT_THRESHOLD) (r : Phase × ℕ) :
    squatRecStep a r = (Phase.DOWN, r.2) := by
  have hu : ¬ (160 : α) < a := not_lt.mpr (le_of_lt (lt_trans h squat_thresholds_lt))
  simp [squatRecStep, h, hu]

/-- An angle above 160 fires the `DOWN → UP` transition and increments. -/
theorem squatRecStep_up {α : Type} [LinearOrderedRing α] (a : α)
    (h : (160 : α) < a) (c : ℕ) :
    squatRecStep a (Phase.DOWN, c) = (Phase.UP, c + 1) := by
  have hl : ¬ a < Config.SQUAT_THRESHOLD := not_lt.mpr (le_of_lt (lt_trans squat_thresholds_lt h))
  simp [squatRecStep, hl, h]

/-- The squat step never decreases the repetition count. -/
theorem squatRecStep_mono {α : Type} [LinearOrderedRing α] (a : α) (r : Phase × ℕ) :
    r.2 ≤ (squatRecStep a r).2 := by
  by_cases hl : a < Config.SQUAT_THRESHOLD
  · rw [squatRecStep_down a hl r]
  · unfold squatRecStep
    rw [if_neg hl]
    by_cases hc : (160 : α) < a ∧ r.1 = Phase.DOWN
    · rw [if_pos hc]
      exact Nat.le_succ r.2
    · rw [if_neg hc]

/-- Running any knee-angle sequence never decreases the repetition count. -/
theorem squatRecRun_mono {α : Type} [LinearOrderedRing α] (l : List α) (r : Phase × ℕ) :
    r.2 ≤ (squatRecRun l r).2 := by
  induction l generalizing r with
  | nil => simp [squatRecRun]
  | cons a tl ih =>
    rw [squatRecRun_cons]
    exact le_trans (squatRecStep_mono a r) (ih (squatRecStep a r))

/-- Any phase change of the squat step is one of the two guarded transitions:
`UP → DOWN` under an angle below 110, or `DOWN → UP` under an angle above 160. -/
theorem squatRecStep_char {α : Type} [LinearOrderedRing α] (a : α) (r : Phase × ℕ)
    (h : (squatRecStep a r).1 ≠ r.1) :
    (r.1 = Phase.UP ∧ (squatRecStep a r).1 = Phase.DOWN ∧ a < Config.SQUAT_THRESHOLD)
      ∨ (r.1 = Phase.DOWN ∧ (squatRecStep a r).1 = Phase.UP ∧ (160 : α) < a) := by
  by_cases hl : a < Config.SQUAT_THRESHOLD
  · left
    rw [squatRecStep_down a hl r] at h ⊢
    cases hr : r.1 with
    | UP => exact ⟨rfl, rfl, hl⟩
    | DOWN => exact absurd hr.symm h
  · by_cases hc : (160 : α) < a ∧ r.1 = Phase.DOWN
    · right
      unfold squatRecStep at h ⊢
      rw [if_neg hl] at h ⊢
      rw [if_pos hc] at h ⊢
      exact ⟨hc.2, rfl, hc.1⟩
    · exfalso
      unfold squatRecStep at h
      rw [if_neg hl, if_neg hc] at h
      exact h rfl

-- Key-set behaviour of squatUpdate ------------------------------------------

/-- Starting from dicts with identical key lists, one `squatUpdate` appends
the identity to both key lists when it is fresh, leaves both unchanged when it
is known, and in particular keeps the two key lists identical. -/
theorem squatUpdate_keys {α : Type} [LinearOrderedRing α] (person_id : ℤ)
    (angle : α) (st : List (ℤ × Phase)) (ct : List (ℤ × ℕ))
    (h : st.map Prod.fst = ct.map Prod.fst) :
    (squatUpdate person_id angle st ct).1.map Prod.fst
        = (if getKey person_id st = none then st.map Prod.fst ++ [person_id]
           else st.map Prod.fst)
      ∧ (squatUpdate person_id angle st ct).2.map Prod.fst
        = (squatUpdate person_id angle st ct).1.map Prod.fst := by
  have hctkeys : getKey person_id ct = none ↔ getKey person_id st = none := by
    rw [getKey_none_iff_keys, getKey_none_iff_keys, h]
  by_cases hn : getKey person_id st = none
  · have hcn : getKey person_id ct = none := hctkeys.mpr hn
    have hst₀ : (setKey person_id Phase.UP st).map Prod.fst
        = st.map Prod.fst ++ [person_id] := keys_setKey_absent _ _ _ hn
    have hct₀ : (setKey person_id (0 : ℕ) ct).map Prod.fst
        = ct.map Prod.fst ++ [person_id] := keys_setKey_absent _ _ _ hcn
    have hstp : getKey person_id (setKey person_id Phase.UP st) ≠ none := by
      simp [getKey_setKey_self]
    have hctp : getKey person_id (setKey person_id (0 : ℕ) ct) ≠ none := by
      simp [getKey_setKey_self]
    by_cases hl : angle < Config.SQUAT_THRESHOLD
    · have h160 : ¬ ((160 : α) < angle ∧
          getKey person_id (setKey person_id Phase.DOWN
            (setKey person_id Phase.UP st)) = some Phase.DOWN) := by
        rintro ⟨h160, -⟩
        exact absurd (lt_trans h160 hl) (not_lt.mpr squat_thresholds_lt.le)
      have hstp₂ : getKey person_id (setKey person_id Phase.DOWN
          (setKey person_id Phase.UP st)) ≠ none := by
        simp [getKey_setKey_self]
      simp only [squatUpdate, squatInit, if_pos hn, if_pos hl, if_neg h160]
      refine ⟨?_, ?_⟩
      · rw [keys_setKey_present _ _ _ hstp, hst₀]
      · rw [keys_setKey_present _ _ _ hstp, hst₀, hct₀, h]
    · simp only [squatUpdate, squatInit, if_pos hn, if_neg hl]
      rw [getKey_setKey_self]
      by_cases h160 : (160 : α) < angle ∧ some Phase.UP = some Phase.DOWN
      · simp at h160
      · rw [if_neg h160]
        refine ⟨?_, ?_⟩
        · rw [hst₀]
        · rw [hst₀, hct₀, h]
  · have hcn : getKey person_id ct ≠ none := fun hc => hn (hctkeys.mp hc)
    by_cases hl : angle < Config.SQUAT_THRESHOLD
    · have hstp : getKey person_id (setKey person_id Phase.DOWN st) ≠ none := by
        simp [getKey_setKey_self]
      have h160 : ¬ ((160 : α) < angle ∧
          getKey person_id (setKey person_id Phase.DOWN st) = some Phase.DOWN) := by
        rintro ⟨h160, -⟩
        exact absurd (lt_trans h160 hl) (not_lt.mpr squat_thresholds_lt.le)
      simp only [squatUpdate, squatInit, if_neg hn, if_pos hl, if_neg h160]
      refine ⟨?_, ?_⟩
      · rw [keys_setKey_present _ _ _ hn]
      · rw [keys_setKey_present _ _ _ hn]
        exact h.symm
    · simp only [squatUpdate, squatInit, if_neg hn, if_neg hl]
      by_cases h160 : (160 : α) < angle ∧ getKey person_id st = some Phase.DOWN
      · rw [if_pos h160]
        have hstp : getKey person_id st ≠ none := hn
        refine ⟨?_, ?_⟩
        · rw [keys_setKey_present _ _ _ hstp]
        · rw [keys_setKey_present _ _ _ hstp, keys_setKey_present _ _ _ hcn, h]
      · rw [if_neg h160]
        exact ⟨rfl, h.symm⟩

-- Geometry -------------------------------------------------------------------

/-- The two-argument arctangent `math.atan2(y, x)`: the argument of the
complex number `x + y·i`, valued in `(-π, π]`. -/
noncomputable def atan2 (y x : ℝ) : ℝ := Complex.arg ⟨x, y⟩

/-- `Geometry.calculate_angle(a, b, c)` of `main.py` lines 20–32: the
difference of the `atan2` directions of `b → c` and `b → a`, converted to
degrees, absolute value, and folded below 180 by subtracting from 360. -/
noncomputable def calculate_angle (a b c : ℝ × ℝ) : ℝ :=
  let radians := atan2 (c.2 - b.2) (c.1 - b.1) - atan2 (a.2 - b.2) (a.1 - b.1)
  let angle := |radians * 180 / Real.pi|
  if 180 < angle then 360 - angle else angle

theorem atan2_le_pi (y x : ℝ) : atan2 y x ≤ Real.pi := Complex.arg_le_pi _

theorem neg_pi_lt_atan2 (y x : ℝ) : -Real.pi < atan2 y x := Complex.neg_pi_lt_arg _

/-- Folding a nonnegative degree value below 360 into `[0, 180]`. -/
theorem fold_range (x : ℝ) (h₀ : 0 ≤ x) (h₁ : x < 360) :
    0 ≤ (if 180 < x then 360 - x else x) ∧ (if 180 < x then 360 - x else x) ≤ 180 := by
  split <;> constructor <;> linarith

/-- The raw degree value computed by `calculate_angle` is below 360. -/
theorem calculate_angle_raw_lt (u v : ℝ) (hu₁ : -Real.pi < u) (hu₂ : u ≤ Real.pi)
    (hv₁ : -Real.pi < v) (hv₂ : v ≤ Real.pi) :
    |(u - v) * 180 / Real.pi| < 360 := by
  have hπ : (0 : ℝ) < Real.pi := Real.pi_pos
  have habs : |u - v| < 2 * Real.pi := by
    rw [abs_lt]
    constructor <;> linarith
  rw [abs_div, abs_of_pos hπ, abs_mul, abs_of_nonneg (by norm_num : (0:ℝ) ≤ 180)]
  rw [div_lt_iff₀ hπ]
  linarith

-- Fall detector and the per-person orchestration -----------------------------

/-- The torso inclination computed by `process_pose` lines 113–121: midpoints
of shoulders (indices 5, 6) and hips (indices 11, 12), then
`abs(degrees(atan2(dx, dy)))` for the shoulder-minus-hip vector. -/
noncomputable def inclinationOf (kps : List (ℝ × ℝ)) : ℝ :=
  let l_shldr := kps.getD 5 (0, 0)
  let r_shldr := kps.getD 6 (0, 0)
  let l_hip := kps.getD 11 (0, 0)
  let r_hip := kps.getD 12 (0, 0)
  let dx := (l_shldr.1 + r_shldr.1) / 2 - (l_hip.1 + r_hip.1) / 2
  let dy := (l_shldr.2 + r_shldr.2) / 2 - (l_hip.2 + r_hip.2) / 2
  |atan2 dx dy * 180 / Real.pi|

/-- The alert message of line 125. -/
def fallMsg (person_id : ℤ) : String :=
  "FALL DETECTED (ID " ++ toString person_id ++ ")"

/-- The mutable analytics state of `TitanPoseSystem`. -/
structure SysState where
  squat_state : List (ℤ × Phase)
  squat_count : List (ℤ × ℕ)
  current_alert : String
  alert_timer : ℤ

/-- The analytics effect of one iteration of the person loop in
`process_pose` (lines 92–143): skip when fewer than 17 landmarks;
otherwise run the fall check on the torso inclination (raising the alert with
duration 30 when it exceeds the threshold) and the squat update on the
right-leg knee angle (hip 12, knee 14, ankle 16). -/
noncomputable def processPerson (person_id : ℤ) (kps : List (ℝ × ℝ))
    (s : SysState) : SysState :=
  if kps.length < 17 then s
  else
    let alerted : AlertState :=
      if Config.FALL_THRESHOLD < inclinationOf kps then
        raiseAlert (fallMsg person_id) 30 ⟨s.current_alert, s.alert_timer⟩
      else ⟨s.current_alert, s.alert_timer⟩
    let knee_angle :=
      calculate_angle (kps.getD 12 (0, 0)) (kps.getD 14 (0, 0)) (kps.getD 16 (0, 0))
    let m := squatUpdate person_id knee_angle s.squat_state s.squat_count
    ⟨m.1, m.2, alerted.current_alert, alerted.alert_timer⟩

-- Claim theorems -------------------------------------------------------------

/-- C4: after raising an alert with duration 3, the slot is active after the
first and second tick, empty after the third, still empty after the fourth;
and a raise during an active countdown resets the timer to the new duration
(shown both generically and during the countdown started above). -/
theorem C4_alert_manager_timeline :
    isActiveAlert (tickAlert (raiseAlert "X" 3 ⟨"", 0⟩)) = true
      ∧ isActiveAlert (tickAlert (tickAlert (raiseAlert "X" 3 ⟨"", 0⟩))) = true
      ∧ isActiveAlert (tickAlert (tickAlert (tickAlert (raiseAlert "X" 3 ⟨"", 0⟩)))) = false
      ∧ isActiveAlert (tickAlert (tickAlert (tickAlert (tickAlert
          (raiseAlert "X" 3 ⟨"", 0⟩))))) = false
      ∧ raiseAlert "Y" 7 (tickAlert (raiseAlert "X" 3 ⟨"", 0⟩)) = ⟨"Y", 7⟩
      ∧ ∀ (m : String) (d : ℤ) (s : AlertState), raiseAlert m d s = ⟨m, d⟩ := by
  refine ⟨?_, ?_, ?_, ?_, rfl, fun m d s => rfl⟩ <;> decide

/-- C6: for all triples of 2D points, `calculate_angle` returns a value in the
closed interval `[0, 180]`. -/
theorem C6_calculate_angle_range (a b c : ℝ × ℝ) :
    0 ≤ calculate_angle a b c ∧ calculate_angle a b c ≤ 180 := by
  simp only [calculate_angle]
  exact fold_range _ (abs_nonneg _)
    (calculate_angle_raw_lt _ _ (neg_pi_lt_atan2 _ _) (atan2_le_pi _ _)
      (neg_pi_lt_atan2 _ _) (atan2_le_pi _ _))

/-- C7: `calculate_angle` is symmetric under swapping the two endpoints. -/
theorem C7_calculate_angle_symm (a b c : ℝ × ℝ) :
    calculate_angle a b c = calculate_angle c b a := by
  simp only [calculate_angle]
  have h : (atan2 (a.2 - b.2) (a.1 - b.1) - atan2 (c.2 - b.2) (c.1 - b.1)) * 180 / Real.pi
      = -((atan2 (c.2 - b.2) (c.1 - b.1) - atan2 (a.2 - b.2) (a.1 - b.1)) * 180 / Real.pi) := by
    ring
  rw [h, abs_neg]

/-- C8: a person observation with fewer than 17 landmarks is skipped entirely:
no squat phase, no repetition count and no alert state changes. -/
theorem C8_insufficient_landmarks_skip (person_id : ℤ) (kps : List (ℝ × ℝ))
    (s : SysState) (h : kps.length < 17) :
    processPerson person_id kps s = s := by
  simp only [processPerson, if_pos h]

/-- C8 witness at a concrete skipped observation. -/
theorem C8_insufficient_landmarks_skip_witness :
    ([] : List (ℝ × ℝ)).length < 17
      ∧ processPerson 1 ([] : List (ℝ × ℝ)) ⟨[], [], "", 0⟩ = ⟨[], [], "", 0⟩ :=
  ⟨by decide, C8_insufficient_landmarks_skip 1 [] ⟨[], [], "", 0⟩ (by decide)⟩

/-- C3: for a processed person observation (at least 17 landmarks), the alert
slot receives the fall message with duration 30 exactly when the computed
torso inclination strictly exceeds the threshold, and is untouched
otherwise. -/
theorem C3_fall_alert_iff_threshold (person_id : ℤ) (kps : List (ℝ × ℝ))
    (s : SysState) (h : 17 ≤ kps.length) :
    ((processPerson person_id kps s).current_alert,
        (processPerson person_id kps s).alert_timer)
      = if Config.FALL_THRESHOLD < inclinationOf kps
        then (fallMsg person_id, (30 : ℤ))
        else (s.current_alert, s.alert_timer) := by
  have h17 : ¬ kps.length < 17 := not_lt.mpr h
  simp only [processPerson, if_neg h17]
  split
  · rfl
  · rfl

/-- C3 witness at a concrete observation with 17 landmarks. -/
theorem C3_fall_alert_iff_threshold_witness :
    17 ≤ (List.replicate 17 ((0 : ℝ), (0 : ℝ))).length
      ∧ ((processPerson 2 (List.replicate 17 ((0 : ℝ), (0 : ℝ))) ⟨[], [], "", 0⟩).current_alert,
          (processPerson 2 (List.replicate 17 ((0 : ℝ), (0 : ℝ))) ⟨[], [], "", 0⟩).alert_timer)
        = if Config.FALL_THRESHOLD < inclinationOf (List.replicate 17 ((0 : ℝ), (0 : ℝ)))
          then (fallMsg 2, (30 : ℤ))
          else ("", (0 : ℤ)) :=
  ⟨by simp, C3_fall_alert_iff_threshold 2 _ ⟨[], [], "", 0⟩ (by simp)⟩

-- C9: the fall-detector examples of the spec against the code ----------------------

/-- Landmarks with both shoulders at `(100, 50)` and both hips at `(100, 150)`:
shoulder midpoint `(100, 50)`, hip midpoint `(100, 150)`: the example the
spec calls perfectly vertical. -/
noncomputable def kpsVertical : List (ℝ × ℝ) :=
  [(0, 0), (0, 0), (0, 0), (0, 0), (0, 0),
   (100, 50), (100, 50),
   (0, 0), (0, 0), (0, 0), (0, 0),
   (100, 150), (100, 150),
   (0, 0), (0, 0), (0, 0), (0, 0)]

/-- Landmarks with both shoulders at `(100, 100)` and both hips at `(200, 105)`:
the example the spec puts at roughly 87 degrees. -/
noncomputable def kpsTilted : List (ℝ × ℝ) :=
  [(0, 0), (0, 0), (0, 0), (0, 0), (0, 0),
   (100, 100), (100, 100),
   (0, 0), (0, 0), (0, 0), (0, 0),
   (200, 105), (200, 105),
   (0, 0), (0, 0), (0, 0), (0, 0)]

theorem inclination_kpsVertical : inclinationOf kpsVertical = 180 := by
  have harg : atan2 (0 : ℝ) (-100) = Real.pi := by
    show Complex.arg ⟨-100, 0⟩ = Real.pi
    have h : ((⟨-100, 0⟩ : ℂ)) = (((-100 : ℝ)) : ℂ) := rfl
    rw [h]
    exact Complex.arg_ofReal_of_neg (by norm_num)
  have h5 : kpsVertical.getD 5 (0, 0) = ((100 : ℝ), (50 : ℝ)) := rfl
  have h6 : kpsVertical.getD 6 (0, 0) = ((100 : ℝ), (50 : ℝ)) := rfl
  have h11 : kpsVertical.getD 11 (0, 0) = ((100 : ℝ), (150 : ℝ)) := rfl
  have h12 : kpsVertical.getD 12 (0, 0) = ((100 : ℝ), (150 : ℝ)) := rfl
  simp only [inclinationOf, h5, h6, h11, h12]
  norm_num
  rw [harg, abs_of_nonneg (by positivity : (0 : ℝ) ≤ Real.pi * 180 / Real.pi)]
  rw [mul_comm, mul_div_assoc, div_self Real.pi_ne_zero, mul_one]

theorem inclination_kpsTilted : 90 < inclinationOf kpsTilted := by
  have hargneg : Complex.arg ⟨-5, -100⟩ < -(Real.pi / 2) := by
    have h : ¬ (-(Real.pi / 2) ≤ Complex.arg ⟨-5, -100⟩) := by
      rw [Complex.neg_pi_div_two_le_arg_iff]
      show ¬ ((0 : ℝ) ≤ -5 ∨ (0 : ℝ) ≤ -100)
      norm_num
    exact not_le.mp h
  have hargzero : Complex.arg ⟨-5, -100⟩ < 0 :=
    lt_trans hargneg (neg_lt_zero.mpr (by positivity))
  have habs : Real.pi / 2 < |Complex.arg ⟨-5, -100⟩| := by
    rw [abs_of_neg hargzero]
    linarith
  have harg : atan2 (-100 : ℝ) (-5) = Complex.arg ⟨-5, -100⟩ := rfl
  have h5 : kpsTilted.getD 5 (0, 0) = ((100 : ℝ), (100 : ℝ)) := rfl
  have h6 : kpsTilted.getD 6 (0, 0) = ((100 : ℝ), (100 : ℝ)) := rfl
  have h11 : kpsTilted.getD 11 (0, 0) = ((200 : ℝ), (105 : ℝ)) := rfl
  have h12 : kpsTilted.getD 12 (0, 0) = ((200 : ℝ), (105 : ℝ)) := rfl
  simp only [inclinationOf, h5, h6, h11, h12]
  norm_num
  rw [harg]
  rw [abs_div, abs_of_pos Real.pi_pos, abs_mul,
    abs_of_nonneg (by norm_num : (0 : ℝ) ≤ 180)]
  rw [lt_div_iff₀ Real.pi_pos]
  nlinarith [Real.pi_pos, habs]

/-- C9: against the claimed examples, the fall detector of the code computes an
inclination of 180° (not 0°) for the perfectly vertical pose with shoulder
midpoint `(100, 50)` above hip midpoint `(100, 150)`, and therefore raises the
fall alert there; on the tilted pose with shoulder midpoint `(100, 100)` and
hip midpoint `(200, 105)` it computes a value above 90° (not ≈ 87°). -/
theorem C9_fall_examples_contradicted :
    inclinationOf kpsVertical = 180
      ∧ Config.FALL_THRESHOLD < inclinationOf kpsVertical
      ∧ (processPerson 7 kpsVertical ⟨[], [], "", 0⟩).current_alert = fallMsg 7
      ∧ (processPerson 7 kpsVertical ⟨[], [], "", 0⟩).alert_timer = 30
      ∧ 90 < inclinationOf kpsTilted := by
  have h180 := inclination_kpsVertical
  have hgt : Config.FALL_THRESHOLD < inclinationOf kpsVertical := by
    rw [h180]
    norm_num [Config.FALL_THRESHOLD]
  have hlen : ¬ (kpsVertical.length < 17) := by norm_num [kpsVertical]
  refine ⟨h180, hgt, ?_, ?_, inclination_kpsTilted⟩
  · simp only [processPerson, if_neg hlen, if_pos hgt, raiseAlert]
  · simp only [processPerson, if_neg hlen, if_pos hgt, raiseAlert]

/-- Record-level single-crossing run: in-band values, one dip below 110,
in-band values, one rise above 160, in-band values — from any starting record
the run ends in `UP` with exactly one increment. -/
theorem squatRecRun_cross {α : Type} [LinearOrderedRing α] (x y : α)
    (pre mid post : List α)
    (hx : x < Config.SQUAT_THRESHOLD) (hy : (160 : α) < y)
    (hpre : ∀ a ∈ pre, Config.SQUAT_THRESHOLD ≤ a ∧ a ≤ 160)
    (hmid : ∀ a ∈ mid, Config.SQUAT_THRESHOLD ≤ a ∧ a ≤ 160)
    (hpost : ∀ a ∈ post, Config.SQUAT_THRESHOLD ≤ a ∧ a ≤ 160)
    (p : Phase) (c : ℕ) :
    squatRecRun (pre ++ x :: (mid ++ y :: post)) (p, c) = (Phase.UP, c + 1) := by
  have h₁ : squatRecRun pre (p, c) = (p, c) := squatRecRun_band pre (p, c) hpre
  have h₂ : squatRecStep x (p, c) = (Phase.DOWN, c) := squatRecStep_down x hx (p, c)
  have h₃ : squatRecRun mid (Phase.DOWN, c) = (Phase.DOWN, c) :=
    squatRecRun_band mid (Phase.DOWN, c) hmid
  have h₄ : squatRecStep y (Phase.DOWN, c) = (Phase.UP, c + 1) := squatRecStep_up y hy c
  have h₅ : squatRecRun post (Phase.UP, c + 1) = (Phase.UP, c + 1) :=
    squatRecRun_band post (Phase.UP, c + 1) hpost
  rw [squatRecRun_append, h₁, squatRecRun_cons, h₂, squatRecRun_append, h₃,
    squatRecRun_cons, h₄, h₅]

/-- C1: a knee-angle sequence that dips below 110° once and later rises above
160° once, all other values staying inside the crossed band `[110, 160]`,
increments the repetition count of the identity by exactly one. -/
theorem C1_single_crossing_increments_once {α : Type} [LinearOrderedRing α]
    (person_id : ℤ) (x y : α) (pre mid post : List α)
    (st : List (ℤ × Phase)) (ct : List (ℤ × ℕ))
    (hsync : getKey person_id st = none ↔ getKey person_id ct = none)
    (hx : x < Config.SQUAT_THRESHOLD) (hy : (160 : α) < y)
    (hpre : ∀ a ∈ pre, Config.SQUAT_THRESHOLD ≤ a ∧ a ≤ 160)
    (hmid : ∀ a ∈ mid, Config.SQUAT_THRESHOLD ≤ a ∧ a ≤ 160)
    (hpost : ∀ a ∈ post, Config.SQUAT_THRESHOLD ≤ a ∧ a ≤ 160) :
    countOf person_id
        (squatRunMaps person_id (pre ++ x :: (mid ++ y :: post)) (st, ct)).2
      = countOf person_id ct + 1 := by
  have ht := (squatRunMaps_track person_id (pre ++ x :: (mid ++ y :: post)) st ct hsync).2
  rw [ht, squatRecRun_cross x y pre mid post hx hy hpre hmid hpost]

/-- C1 witness: the sequence 150, 100, 120, 170, 155 for a fresh identity. -/
theorem C1_single_crossing_increments_once_witness :
    ((100 : ℤ) < Config.SQUAT_THRESHOLD ∧ (160 : ℤ) < 170
        ∧ (∀ a ∈ [(150 : ℤ)], Config.SQUAT_THRESHOLD ≤ a ∧ a ≤ 160))
      ∧ countOf 1 (squatRunMaps 1 ([150] ++ (100 : ℤ) :: ([120] ++ 170 :: [155]))
          ([], [])).2 = countOf 1 [] + 1 :=
  ⟨⟨by decide, by decide, by decide⟩,
    C1_single_crossing_increments_once 1 100 170 [150] [120] [155] [] []
      (by decide) (by decide) (by decide) (by decide) (by decide) (by decide)⟩

/-- C2: a knee-angle sequence staying strictly inside the hysteresis band
(110°, 160°) produces no count increment and no phase change for the
identity. -/
theorem C2_band_no_increments {α : Type} [LinearOrderedRing α]
    (person_id : ℤ) (l : List α)
    (st : List (ℤ × Phase)) (ct : List (ℤ × ℕ))
    (hsync : getKey person_id st = none ↔ getKey person_id ct = none)
    (hband : ∀ a ∈ l, Config.SQUAT_THRESHOLD < a ∧ a < 160) :
    countOf person_id (squatRunMaps person_id l (st, ct)).2 = countOf person_id ct
      ∧ phaseOf person_id (squatRunMaps person_id l (st, ct)).1
        = phaseOf person_id st := by
  have hband₂ : ∀ a ∈ l, Config.SQUAT_THRESHOLD ≤ a ∧ a ≤ 160 := fun a ha =>
    ⟨(hband a ha).1.le, (hband a ha).2.le⟩
  have ht := squatRunMaps_track person_id l st ct hsync
  constructor
  · rw [ht.2, squatRecRun_band l _ hband₂]
  · rw [ht.1, squatRecRun_band l _ hband₂]

/-- C2 witness: oscillating in-band sequence 115, 155, 120 for an identity
already tracked in phase `DOWN` with count 2. -/
theorem C2_band_no_increments_witness :
    (∀ a ∈ [(115 : ℤ), 155, 120], Config.SQUAT_THRESHOLD < a ∧ a < 160)
      ∧ countOf 5 (squatRunMaps 5 [(115 : ℤ), 155, 120]
          ([(5, Phase.DOWN)], [(5, 2)])).2 = countOf 5 [(5, 2)]
      ∧ phaseOf 5 (squatRunMaps 5 [(115 : ℤ), 155, 120]
          ([(5, Phase.DOWN)], [(5, 2)])).1 = phaseOf 5 [(5, Phase.DOWN)] :=
  ⟨by decide,
    (C2_band_no_increments 5 [115, 155, 120] [(5, Phase.DOWN)] [(5, 2)]
      (by decide) (by decide)).1,
    (C2_band_no_increments 5 [115, 155, 120] [(5, Phase.DOWN)] [(5, 2)]
      (by decide) (by decide)).2⟩

/-- C5: the repetition count is monotone along any extension of an update
sequence, and a phase change of one update is exactly one of the guarded
transitions `UP → DOWN` (angle below 110) or `DOWN → UP` (angle above 160). -/
theorem C5_monotone_count_guarded_transitions {α : Type} [LinearOrderedRing α]
    (person_id : ℤ) (a : α) (l₁ l₂ : List α)
    (st : List (ℤ × Phase)) (ct : List (ℤ × ℕ))
    (hsync : getKey person_id st = none ↔ getKey person_id ct = none) :
    countOf person_id (squatRunMaps person_id l₁ (st, ct)).2
        ≤ countOf person_id (squatRunMaps person_id (l₁ ++ l₂) (st, ct)).2
      ∧ (phaseOf person_id (squatUpdate person_id a st ct).1 ≠ phaseOf person_id st →
          (phaseOf person_id st = Phase.UP
              ∧ phaseOf person_id (squatUpdate person_id a st ct).1 = Phase.DOWN
              ∧ a < Config.SQUAT_THRESHOLD)
            ∨ (phaseOf person_id st = Phase.DOWN
              ∧ phaseOf person_id (squatUpdate person_id a st ct).1 = Phase.UP
              ∧ (160 : α) < a)) := by
  constructor
  · have h₁ := (squatRunMaps_track person_id l₁ st ct hsync).2
    have h₂ := (squatRunMaps_track person_id (l₁ ++ l₂) st ct hsync).2
    rw [h₁, h₂, squatRecRun_append]
    exact squatRecRun_mono l₂ _
  · intro hne
    have htr := (squatUpdate_track person_id a st ct hsync).1
    rw [htr] at hne ⊢
    exact squatRecStep_char a (phaseOf person_id st, countOf person_id ct) hne

/-- C5 witness: a fresh identity, prefix 100, extension 170, 100, and the
`UP → DOWN` transition at angle 100. -/
theorem C5_monotone_count_guarded_transitions_witness :
    countOf 3 (squatRunMaps 3 [(100 : ℤ)] ([], [])).2
        ≤ countOf 3 (squatRunMaps 3 ([(100 : ℤ)] ++ [170, 100]) ([], [])).2
      ∧ ((phaseOf 3 ([] : List (ℤ × Phase)) = Phase.UP
            ∧ phaseOf 3 (squatUpdate 3 (100 : ℤ) [] []).1 = Phase.DOWN
            ∧ (100 : ℤ) < Config.SQUAT_THRESHOLD)
          ∨ (phaseOf 3 ([] : List (ℤ × Phase)) = Phase.DOWN
            ∧ phaseOf 3 (squatUpdate 3 (100 : ℤ) [] []).1 = Phase.UP
            ∧ (160 : ℤ) < 100)) :=
  ⟨(C5_monotone_count_guarded_transitions 3 (100 : ℤ) [100] [170, 100] [] []
      (by decide)).1,
    (C5_monotone_count_guarded_transitions 3 (100 : ℤ) [100] [170, 100] [] []
      (by decide)).2 (by decide)⟩

/-- C10: starting from dicts with identical key lists, a squat update keeps
the key lists of the phase and count dicts identical; a fresh identity is
inserted by the initialisation into both dicts in the same step with phase
`UP` and count 0 (and the update appends it to both key lists), while a known
identity changes neither key list. -/
theorem C10_phase_count_key_sets {α : Type} [LinearOrderedRing α]
    (person_id : ℤ) (angle : α)
    (st : List (ℤ × Phase)) (ct : List (ℤ × ℕ))
    (h : st.map Prod.fst = ct.map Prod.fst) :
    (squatUpdate person_id angle st ct).2.map Prod.fst
        = (squatUpdate person_id angle st ct).1.map Prod.fst
      ∧ (getKey person_id st = none →
          getKey person_id (squatInit person_id st ct).1 = some Phase.UP
            ∧ getKey person_id (squatInit person_id st ct).2 = some 0
            ∧ (squatUpdate person_id angle st ct).1.map Prod.fst
              = st.map Prod.fst ++ [person_id])
      ∧ (getKey person_id st ≠ none →
          (squatUpdate person_id angle st ct).1.map Prod.fst = st.map Prod.fst) := by
  obtain ⟨h₁, h₂⟩ := squatUpdate_keys person_id angle st ct h
  refine ⟨h₂, fun hn => ⟨?_, ?_, ?_⟩, fun hn => ?_⟩
  · simp [squatInit, hn, getKey_setKey_self]
  · simp [squatInit, hn, getKey_setKey_self]
  · rw [h₁, if_pos hn]
  · rw [h₁, if_neg hn]

/-- C10 witness: identity 4 fresh, identity 9 already tracked in both dicts. -/
theorem C10_phase_count_key_sets_witness :
    ([((9 : ℤ), Phase.UP)].map Prod.fst = [((9 : ℤ), (1 : ℕ))].map Prod.fst)
      ∧ (squatUpdate 4 (120 : ℤ) [(9, Phase.UP)] [(9, 1)]).2.map Prod.fst
          = (squatUpdate 4 (120 : ℤ) [(9, Phase.UP)] [(9, 1)]).1.map Prod.fst
      ∧ getKey 4 (squatInit 4 [(9, Phase.UP)] [(9, 1)]).1 = some Phase.UP
      ∧ getKey 4 (squatInit 4 [(9, Phase.UP)] [(9, 1)]).2 = some 0
      ∧ (squatUpdate 4 (120 : ℤ) [(9, Phase.UP)] [(9, 1)]).1.map Prod.fst
          = [((9 : ℤ), Phase.UP)].map Prod.fst ++ [4] :=
  ⟨rfl,
    (C10_phase_count_key_sets 4 (120 : ℤ) [(9, Phase.UP)] [(9, 1)] rfl).1,
    ((C10_phase_count_key_sets 4 (120 : ℤ) [(9, Phase.UP)] [(9, 1)] rfl).2.1
      (by decide)).1,
    ((C10_phase_count_key_sets 4 (120 : ℤ) [(9, Phase.UP)] [(9, 1)] rfl).2.1
      (by decide)).2.1,
    ((C10_phase_count_key_sets 4 (120 : ℤ) [(9, Phase.UP)] [(9, 1)] rfl).2.1
      (by decide)).2.2⟩
